import Mathlib

/-!
Shallow embedding, in Lean 4, of the catalog server of the
"mcp-server-catalog-with-api" repository: the product repository
(filtering, sorting, pagination, search, facets, recommendations), the
category repository (category listing, price ranges), the HTTP controller
behaviour relevant to the claims, and the MCP tool bridge for product
recommendations.  The theorems at the end of the file settle the
specification claims against these definitions.

Modelling conventions:
* JavaScript numbers are modelled as exact arithmetic (rationals for
  prices, ratings and comparator values; naturals and integers for
  counters and timestamps).  The catalog data is far below any
  double-precision rounding boundary.
* The values Infinity and NaN that JavaScript produces for the expression
  Math.ceil(total / 0) are modelled by the dedicated constructors of
  JSNum.
* Array.prototype.sort with a consistent comparator is, per the ECMAScript
  2019 specification, a stable sort whose output is ordered by the
  comparator; that output is uniquely determined, and List.insertionSort
  with the relation cmp a b ≤ 0 computes exactly it.
* Array.prototype.slice o (o + n) for a non-negative offset o is
  List.take n after List.drop o.
* String.prototype.localeCompare under the default locale is modelled as
  the sign-valued comparison in the linear order on strings; only its
  comparison laws matter for the claims.
* The field createdAtTime models the number new Date(p.createdAt).getTime()
  for the product's ISO timestamp string.
-/

namespace Catalog

/-- Possible results of the JavaScript expression Math.ceil(total / limit):
a finite natural number, Infinity, or NaN. -/
inductive JSNum where
  | num (n : ℕ)
  | inf
  | nan
deriving DecidableEq

/-- Model of Math.ceil(total / limit) on natural inputs, as computed (without
any guard) by ProductRepository.getProducts and searchProducts: exact ceiling
division for a positive divisor; for divisor 0 JavaScript yields NaN when the
dividend is 0 and Infinity otherwise. -/
def jsTotalPages (total limit : ℕ) : JSNum :=
  if limit = 0 then (if total = 0 then JSNum.nan else JSNum.inf)
  else JSNum.num ((total + limit - 1) / limit)

/-- Model of the JavaScript comparison page < totalPages, where totalPages may
be Infinity (greater than every finite page) or NaN (every comparison is
false). -/
def jsLtPage (page : ℕ) : JSNum → Bool
  | JSNum.num t => page < t
  | JSNum.inf => true
  | JSNum.nan => false

/-- Character-list test that l starts with m. -/
def startsWithChars : List Char → List Char → Bool
  | _, [] => true
  | [], _ :: _ => false
  | a :: l, b :: m => a == b && startsWithChars l m

/-- Character-list test that m occurs contiguously inside l. -/
def containsChars : List Char → List Char → Bool
  | [], m => m.isEmpty
  | a :: l, m => startsWithChars (a :: l) m || containsChars l m

/-- Model of String.prototype.includes: contiguous-substring test. -/
def jsIncludes (s sub : String) : Bool :=
  containsChars s.data sub.data

theorem containsChars_append_right {m q : List Char} (h : containsChars m q = true)
    (l : List Char) : containsChars (l ++ m) q = true := by
  induction l with
  | nil => simpa using h
  | cons a l ih =>
    simp only [List.cons_append, containsChars, Bool.or_eq_true]
    exact Or.inr ih

theorem jsIncludes_append_right {t q : String} (h : jsIncludes t q = true) (s : String) :
    jsIncludes (s ++ t) q = true := by
  unfold jsIncludes at h ⊢
  rw [String.data_append]
  exact containsChars_append_right h s.data

/-- Iteration of JavaScript Set insertion over a list: keeps each value's
first occurrence, skipping values already seen. -/
def dedupFirstAux {α : Type} [DecidableEq α] (seen : List α) : List α → List α
  | [] => []
  | a :: l => if a ∈ seen then dedupFirstAux seen l else a :: dedupFirstAux (a :: seen) l

/-- Model of spreading a JavaScript Set built from a list: the list of its
elements with the first occurrence of each value kept, in order. -/
def dedupFirst {α : Type} [DecidableEq α] (l : List α) : List α :=
  dedupFirstAux [] l

theorem mem_dedupFirstAux {α : Type} [DecidableEq α] {x : α} {l seen : List α} :
    x ∈ dedupFirstAux seen l ↔ x ∈ l ∧ x ∉ seen := by
  induction l generalizing seen with
  | nil => simp [dedupFirstAux]
  | cons a l ih =>
    by_cases ha : a ∈ seen
    · rw [dedupFirstAux, if_pos ha, ih]
      simp only [List.mem_cons]
      constructor
      · rintro ⟨h1, h2⟩
        exact ⟨Or.inr h1, h2⟩
      · rintro ⟨h1 | h1, h2⟩
        · exact absurd (h1 ▸ ha) h2
        · exact ⟨h1, h2⟩
    · rw [dedupFirstAux, if_neg ha]
      simp only [List.mem_cons, ih]
      constructor
      · rintro (rfl | ⟨h1, h2⟩)
        · exact ⟨Or.inl rfl, ha⟩
        · exact ⟨Or.inr h1, fun hx => h2 (Or.inr hx)⟩
      · rintro ⟨h1 | h1, h2⟩
        · exact Or.inl h1
        · by_cases hxa : x = a
          · exact Or.inl hxa
          · refine Or.inr ⟨h1, ?_⟩
            simp [List.mem_cons, hxa, h2]

theorem nodup_dedupFirstAux {α : Type} [DecidableEq α] :
    ∀ (l seen : List α), (dedupFirstAux seen l).Nodup
  | [], seen => by
    rw [dedupFirstAux]
    exact List.nodup_nil
  | a :: l, seen => by
    by_cases ha : a ∈ seen
    · rw [dedupFirstAux, if_pos ha]
      exact nodup_dedupFirstAux l seen
    · rw [dedupFirstAux, if_neg ha]
      refine List.Pairwise.cons (fun b hb hab => ?_) (nodup_dedupFirstAux l (a :: seen))
      have hmem := mem_dedupFirstAux.mp hb
      subst hab
      exact hmem.2 (List.mem_cons_self _ _)

theorem mem_dedupFirst {α : Type} [DecidableEq α] {x : α} {l : List α} :
    x ∈ dedupFirst l ↔ x ∈ l := by
  unfold dedupFirst
  rw [mem_dedupFirstAux]
  simp

theorem nodup_dedupFirst {α : Type} [DecidableEq α] (l : List α) : (dedupFirst l).Nodup :=
  nodup_dedupFirstAux l []

/-- Product record, as in src/server-example/interfaces/product-interface.ts.
Fields not consulted by any modelled operation (sku, currency, images,
attributes, updatedAt) are omitted; createdAtTime is the parsed timestamp
new Date(createdAt).getTime(). -/
structure Product where
  id : String
  name : String
  description : String
  price : ℚ
  category : String
  subcategory : Option String
  brand : String
  inStock : Bool
  stockQuantity : ℕ
  rating : ℚ
  reviewCount : ℕ
  tags : List String
  createdAtTime : ℤ
deriving DecidableEq

/-- The sortBy values accepted by ProductFilters; any other string falls into
the default (name) branch of the comparator. -/
inductive SortBy where
  | name
  | price
  | rating
  | created_at
deriving DecidableEq

inductive SortOrder where
  | asc
  | desc
deriving DecidableEq

/-- Sign-valued model of String.prototype.localeCompare under the default
locale. -/
def localeCmp (s t : String) : ℚ :=
  if s < t then -1 else if s = t then 0 else 1

/-- The comparison value computed inside the sort callback of
ProductRepository.getProducts for a given sortBy key. -/
def productComparison (sb : SortBy) (a b : Product) : ℚ :=
  match sb with
  | SortBy.price => a.price - b.price
  | SortBy.rating => a.rating - b.rating
  | SortBy.created_at => ((a.createdAtTime - b.createdAtTime : ℤ) : ℚ)
  | SortBy.name => localeCmp a.name.toLower b.name.toLower

/-- The comparator actually returned by the sort callback: the comparison,
negated when sortOrder is desc (the sequence is never reversed). -/
def appliedCmp (sb : SortBy) (so : SortOrder) : Product → Product → ℚ :=
  match so with
  | SortOrder.asc => fun a b => productComparison sb a b
  | SortOrder.desc => fun a b => -(productComparison sb a b)

instance decRelCmpLE {α : Type} (cmp : α → α → ℚ) :
    DecidableRel (fun a b => cmp a b ≤ 0) :=
  fun a b => inferInstanceAs (Decidable (cmp a b ≤ 0))

/-- Model of Array.prototype.sort with comparator cmp: the unique stable sort
ordered by the comparator, computed by insertion sort on the relation
cmp a b ≤ 0. -/
def jsStableSort {α : Type} (cmp : α → α → ℚ) (l : List α) : List α :=
  List.insertionSort (fun a b => cmp a b ≤ 0) l

/-- ProductFilters, as read by the product controller from the query string.
Absent parameters are none; JavaScript truthiness tests (empty string is
falsy) are reproduced at the use sites. -/
structure ProductFilters where
  category : Option String
  brand : Option String
  inStock : Bool
  minPrice : Option ℚ
  maxPrice : Option ℚ
  sortBy : Option SortBy
  sortOrder : Option SortOrder

/-- The filter cascade of ProductRepository.getProducts. -/
def applyFilters (f : ProductFilters) (ps : List Product) : List Product :=
  let l1 := match f.category with
    | some c =>
        if c = "" then ps
        else ps.filter (fun p => decide (p.category = c ∨ p.subcategory = some c))
    | none => ps
  let l2 := match f.brand with
    | some b =>
        if b = "" then l1
        else l1.filter (fun p => decide (p.brand.toLower = b.toLower))
    | none => l1
  let l3 := if f.inStock then l2.filter (fun p => p.inStock) else l2
  let l4 := match f.minPrice with
    | some m => l3.filter (fun p => decide (m ≤ p.price))
    | none => l3
  match f.maxPrice with
  | some m => l4.filter (fun p => decide (p.price ≤ m))
  | none => l4

/-- The filtered list after the in-place sort of getProducts (defaults:
sortBy name, sortOrder asc). -/
def sortedFiltered (f : ProductFilters) (ps : List Product) : List Product :=
  jsStableSort (appliedCmp (f.sortBy.getD SortBy.name) (f.sortOrder.getD SortOrder.asc))
    (applyFilters f ps)

structure PaginationParams where
  page : ℕ
  limit : ℕ

structure PaginationMeta where
  page : ℕ
  limit : ℕ
  total : ℕ
  totalPages : JSNum
  hasNext : Bool
  hasPrev : Bool
deriving DecidableEq

structure ProductsPage where
  products : List Product
  meta : PaginationMeta

/-- ProductRepository.getProducts: filter, stable sort, then slice
[offset, offset + limit) with offset = (page - 1) * limit, together with the
pagination metadata. -/
def getProducts (f : ProductFilters) (pg : PaginationParams) (ps : List Product) :
    ProductsPage :=
  let filtered := sortedFiltered f ps
  let total := filtered.length
  let totalPages := jsTotalPages total pg.limit
  let offset := (pg.page - 1) * pg.limit
  { products := (filtered.drop offset).take pg.limit
    meta := { page := pg.page, limit := pg.limit, total := total, totalPages := totalPages,
              hasNext := jsLtPage pg.page totalPages, hasPrev := decide (1 < pg.page) } }

/-- The search parameters used by ProductRepository.searchProducts. -/
structure SearchFilters where
  query : Option String
  category : Option String

/-- The query part of the match predicate of searchProducts: an empty query
matches everything, otherwise the lower-cased query must occur in the
lower-cased name, description, or one of the tags. -/
def matchesQueryB (q : String) (p : Product) : Bool :=
  (q == "") || jsIncludes p.name.toLower q.toLower
    || jsIncludes p.description.toLower q.toLower
    || p.tags.any (fun t => jsIncludes t.toLower q.toLower)

/-- The category part of the match predicate of searchProducts; an absent or
empty (falsy) category matches everything. -/
def matchesCategoryB (c : Option String) (p : Product) : Bool :=
  match c with
  | none => true
  | some c => (c == "") || (p.category == c) || (p.subcategory == some c)

/-- The pre-sort match list of searchProducts (the products that pass both
predicate parts, in store order). -/
def searchMatches (sf : SearchFilters) (ps : List Product) : List Product :=
  ps.filter (fun p => matchesQueryB (sf.query.getD "") p && matchesCategoryB sf.category p)

/-- Relevance score of a product for a non-empty query: 2 when the query
occurs in the name plus 1 when it occurs in the description. -/
def relevanceScore (q : String) (p : Product) : ℕ :=
  (if jsIncludes p.name.toLower q.toLower then 2 else 0)
    + (if jsIncludes p.description.toLower q.toLower then 1 else 0)

/-- The match list of searchProducts after the conditional relevance sort:
left in store order for an empty (falsy) query, otherwise stably sorted by
the comparator bScore - aScore. -/
def searchOrdered (sf : SearchFilters) (ps : List Product) : List Product :=
  let q := sf.query.getD ""
  if q = "" then searchMatches sf ps
  else
    jsStableSort (fun a b => ((relevanceScore q b : ℚ) - (relevanceScore q a : ℚ)))
      (searchMatches sf ps)

/-- Category facets of searchProducts: the distinct categories of the
(pre-pagination) match list, each with the number of matches in it. -/
def categoryFacets (results : List Product) : List (String × ℕ) :=
  (dedupFirst (results.map (fun p => p.category))).map
    (fun v => (v, (results.filter (fun p => p.category == v)).length))

/-- Brand facets of searchProducts, analogous to categoryFacets. -/
def brandFacets (results : List Product) : List (String × ℕ) :=
  (dedupFirst (results.map (fun p => p.brand))).map
    (fun v => (v, (results.filter (fun p => p.brand == v)).length))

structure SearchFacets where
  categories : List (String × ℕ)
  brands : List (String × ℕ)

structure SearchPage where
  products : List Product
  meta : PaginationMeta
  facets : SearchFacets

/-- ProductRepository.searchProducts: match, conditionally sort by relevance,
paginate, and compute facets over the pre-pagination match list. -/
def searchProducts (sf : SearchFilters) (pg : PaginationParams) (ps : List Product) :
    SearchPage :=
  let results := searchOrdered sf ps
  let total := results.length
  let totalPages := jsTotalPages total pg.limit
  let offset := (pg.page - 1) * pg.limit
  { products := (results.drop offset).take pg.limit
    meta := { page := pg.page, limit := pg.limit, total := total, totalPages := totalPages,
              hasNext := jsLtPage pg.page totalPages, hasPrev := decide (1 < pg.page) }
    facets := { categories := categoryFacets results, brands := brandFacets results } }

/-- ProductRepository.getProductById: first product with the given id. -/
def getProductById (ps : List Product) (pid : String) : Option Product :=
  ps.find? (fun p => p.id == pid)

/-- ProductRepository.getProductRecommendations: empty for an unresolved id;
otherwise the other products sharing the category or the brand, sorted by
rating descending (comparator b.rating - a.rating) and truncated to limit. -/
def getProductRecommendationsRepo (ps : List Product) (pid : String) (limit : ℕ) :
    List Product :=
  match getProductById ps pid with
  | none => []
  | some product =>
      (jsStableSort (fun a b => b.rating - a.rating)
        (ps.filter (fun p =>
          (!(p.id == pid)) && (p.category == product.category || p.brand == product.brand)))).take
        limit

/-- ProductService.getProductRecommendations: checks that the id resolves and
throws "Product not found" otherwise, before delegating to the repository. -/
def getProductRecommendationsService (ps : List Product) (pid : String) (limit : ℕ) :
    Except String (List Product) :=
  match getProductById ps pid with
  | none => Except.error "Product not found"
  | some _ => Except.ok (getProductRecommendationsRepo ps pid limit)

/-- PriceRange as produced by CategoryRepository.getCategoryPriceRange. -/
structure PriceRange where
  categoryId : String
  minPrice : ℚ
  maxPrice : ℚ
  averagePrice : ℚ
  productCount : ℕ
deriving DecidableEq

/-- Model of Math.round: round to the nearest integer, halves towards
positive infinity. -/
def jsMathRound (x : ℚ) : ℤ := ⌊x + 1 / 2⌋

/-- CategoryRepository.getCategoryPriceRange: none when no product has the
category as its category or subcategory; otherwise min, max, the mean rounded
to two decimals via Math.round(mean * 100) / 100, and the count. -/
def getCategoryPriceRange (prods : List Product) (cid : String) : Option PriceRange :=
  let categoryProducts :=
    prods.filter (fun p => p.category == cid || p.subcategory == some cid)
  match categoryProducts with
  | [] => none
  | q :: qs =>
      let prices := (q :: qs).map (fun p => p.price)
      some { categoryId := cid
             minPrice := (qs.map (fun p => p.price)).foldl min q.price
             maxPrice := (qs.map (fun p => p.price)).foldl max q.price
             averagePrice :=
               ((jsMathRound ((prices.foldl (fun sum price => sum + price) 0
                 / (prices.length : ℚ)) * 100) : ℚ)) / 100
             productCount := (q :: qs).length }

/-- Category record; subcategories are owned children, productCount is
recomputed on read. -/
inductive Category where
  | mk (id : String) (name : String) (description : String) (parentId : Option String)
      (subcategories : List Category) (productCount : ℕ)

def Category.id : Category → String
  | Category.mk i _ _ _ _ _ => i

def Category.subcategories : Category → List Category
  | Category.mk _ _ _ _ s _ => s

def Category.setProductCount : Category → ℕ → Category
  | Category.mk i n d p s _, c => Category.mk i n d p s c

/-- The recomputed product count of a category: products whose category or
subcategory field equals its id. -/
def categoryProductCount (prods : List Product) (cid : String) : ℕ :=
  (prods.filter (fun p => p.category == cid || p.subcategory == some cid)).length

def withProductCounts (prods : List Product) (cats : List Category) : List Category :=
  cats.map (fun c => c.setProductCount (categoryProductCount prods c.id))

/-- CategoryRepository.getCategories: for a truthy parentId whose category is
not found the repository returns the empty list at once; otherwise the
selected list, with product counts attached when requested. -/
def categoryRepoGetCategories (cats : List Category) (prods : List Product)
    (parentId : Option String) (includeProductCount : Bool) : List Category :=
  match parentId with
  | some pid =>
      if pid = "" then
        (if includeProductCount then withProductCounts prods cats else cats)
      else
        match cats.find? (fun c => c.id == pid) with
        | none => []
        | some parent =>
            if includeProductCount then withProductCounts prods parent.subcategories
            else parent.subcategories

  | none => if includeProductCount then withProductCounts prods cats else cats

/-- Body of a GET /api/v1/categories response. -/
inductive CategoriesBody where
  | data (cats : List Category)
  | failure (msg : String)

/-- HTTP response (status, body) of the GET /api/v1/categories route of the
layered api-server: CategoryController.getCategories wraps the service
result, which wraps the repository result in a data envelope; the repository
and service are total, so the catch branch (status 500) is unreachable and
the route always answers 200. -/
def categoriesRouteResponse (cats : List Category) (prods : List Product)
    (parentId : Option String) (includeProductCount : Bool) : ℕ × CategoriesBody :=
  (200, CategoriesBody.data (categoryRepoGetCategories cats prods parentId includeProductCount))

/-- Outcome of an MCP tool invocation: a data payload, an InvalidRequest
McpError, or a propagated failure. -/
inductive ToolOutcome where
  | ok (data : List Product)
  | invalidRequest (message : String)
  | failure (message : String)
deriving DecidableEq

/-- The get_product_recommendations handler registered with
server.registerTool in src/index.ts, parametric in the two API-client calls
it may make.  JavaScript truthiness of the optional string arguments is
(getD "" ≠ ""). -/
def recommendationsToolHandler
    (api : String → ℕ → Except String (List Product))
    (generalApi : String → ℕ → Except String (List Product))
    (productId category : Option String) (limit : ℕ) : ToolOutcome :=
  let pid := productId.getD ""
  let cat := category.getD ""
  if pid ≠ "" then
    match api pid limit with
    | Except.ok data => ToolOutcome.ok data
    | Except.error msg =>
        if jsIncludes msg "404" then
          ToolOutcome.invalidRequest ("Product with ID " ++ pid ++ " not found")
        else ToolOutcome.failure msg
  else if cat ≠ "" then
    match generalApi cat limit with
    | Except.ok data => ToolOutcome.ok data
    | Except.error msg => ToolOutcome.failure msg
  else
    ToolOutcome.invalidRequest "Either productId or category must be provided for recommendations"

/-- Server side of GET /api/v1/products/:id/recommendations in the layered
api-server: 404 with body error "Product not found" when the id does not
resolve (raised by ProductService), otherwise the repository result. -/
def recommendationsEndpoint (store : List Product) (pid : String) (limit : ℕ) :
    Except (ℕ × String) (List Product) :=
  match getProductById store pid with
  | none => Except.error (404, "Product not found")
  | some _ => Except.ok (getProductRecommendationsRepo store pid limit)

/-- Server side of the category-scoped fallback
GET /api/v1/products?category=...&limit=...&sort_by=rating&sort_order=desc
issued by CatalogApiClient.getGeneralRecommendations. -/
def generalRecommendationsEndpoint (store : List Product) (c : String) (limit : ℕ) :
    List Product :=
  (getProducts
    { category := some c, brand := none, inStock := false, minPrice := none,
      maxPrice := none, sortBy := some SortBy.rating, sortOrder := some SortOrder.desc }
    { page := 1, limit := limit } store).products

/-- CatalogApiClient.getProductRecommendations over the layered server: on a
non-ok status the client raises an error whose message embeds the URL and the
status, as in its request helper. -/
def clientRecommendationsCall (store : List Product) (pid : String) (limit : ℕ) :
    Except String (List Product) :=
  match recommendationsEndpoint store pid limit with
  | Except.ok data => Except.ok data
  | Except.error st =>
      Except.error
        (("Failed to fetch from http://localhost:3001/api/v1/products/" ++ pid
            ++ "/recommendations?limit=" ++ toString limit ++ ": ")
          ++ ("API Error (" ++ toString st.1 ++ "): " ++ st.2))

/-- CatalogApiClient.getGeneralRecommendations with a truthy category over
the layered server (the products route always answers 200). -/
def clientGeneralRecommendationsCall (store : List Product) (c : String) (limit : ℕ) :
    Except String (List Product) :=
  Except.ok (generalRecommendationsEndpoint store c limit)

/-- The deployed get_product_recommendations tool: the registerTool handler
wired to the API client over the layered server. -/
def recommendationsTool (store : List Product) (productId category : Option String)
    (limit : ℕ) : ToolOutcome :=
  recommendationsToolHandler (clientRecommendationsCall store)
    (clientGeneralRecommendationsCall store) productId category limit

section StableSortTheory

variable {α K : Type} [LinearOrder K]

theorem cmp_lt_iff {cmp : α → α → ℚ} {k : α → K}
    (hle : ∀ a b, cmp a b ≤ 0 ↔ k a ≤ k b) (heq : ∀ a b, cmp a b = 0 ↔ k a = k b)
    (a b : α) : cmp a b < 0 ↔ k a < k b := by
  have h1 : cmp a b < 0 ↔ cmp a b ≤ 0 ∧ ¬ cmp a b = 0 := lt_iff_le_and_ne
  have h2 : k a < k b ↔ k a ≤ k b ∧ ¬ k a = k b := lt_iff_le_and_ne
  rw [h1, h2, hle, heq]

theorem cmp_nonneg_iff {cmp : α → α → ℚ} {k : α → K}
    (hle : ∀ a b, cmp a b ≤ 0 ↔ k a ≤ k b) (heq : ∀ a b, cmp a b = 0 ↔ k a = k b)
    (a b : α) : 0 ≤ cmp a b ↔ k b ≤ k a := by
  rw [← not_lt, cmp_lt_iff hle heq, not_lt]

theorem cmp_pos_iff {cmp : α → α → ℚ} {k : α → K}
    (hle : ∀ a b, cmp a b ≤ 0 ↔ k a ≤ k b)
    (a b : α) : 0 < cmp a b ↔ k b < k a := by
  rw [← not_le, hle, not_le]

theorem filter_orderedInsert_of {cmp : α → α → ℚ} {k : α → K} (p : α → Bool)
    (hle : ∀ a b, cmp a b ≤ 0 ↔ k a ≤ k b)
    (hp : ∀ b c, p b = true → p c = true → k b = k c) (a : α) :
    ∀ s : List α,
      (List.orderedInsert (fun x y => cmp x y ≤ 0) a s).filter p = (a :: s).filter p
  | [] => rfl
  | b :: t => by
    by_cases hab : cmp a b ≤ 0
    · simp only [List.orderedInsert, if_pos hab]
    · simp only [List.orderedInsert, if_neg hab]
      have ih := filter_orderedInsert_of p hle hp a t
      by_cases hpa : p a = true
      · by_cases hpb : p b = true
        · exact absurd ((hle a b).mpr (le_of_eq (hp a b hpa hpb))) hab
        · simp [List.filter_cons, hpa, hpb, ih]
      · by_cases hpb : p b = true
        · simp [List.filter_cons, hpa, hpb, ih]
        · simp [List.filter_cons, hpa, hpb, ih]

theorem jsStableSort_filter_of {cmp : α → α → ℚ}
    {k : α → K} (p : α → Bool)
    (hle : ∀ a b, cmp a b ≤ 0 ↔ k a ≤ k b)
    (hp : ∀ b c, p b = true → p c = true → k b = k c) :
    ∀ l : List α, (jsStableSort cmp l).filter p = l.filter p
  | [] => rfl
  | a :: l => by
    have h1 : jsStableSort cmp (a :: l)
        = List.orderedInsert (fun x y => cmp x y ≤ 0) a (jsStableSort cmp l) := rfl
    rw [h1, filter_orderedInsert_of p hle hp a (jsStableSort cmp l),
      List.filter_cons, List.filter_cons, jsStableSort_filter_of p hle hp l]

theorem jsStableSort_pairwise_le {cmp : α → α → ℚ} {k : α → K}
    (hle : ∀ a b, cmp a b ≤ 0 ↔ k a ≤ k b) (l : List α) :
    (jsStableSort cmp l).Pairwise (fun a b => k a ≤ k b) := by
  haveI : IsTotal α (fun a b => cmp a b ≤ 0) :=
    ⟨fun a b => by rw [hle a b, hle b a]; exact le_total (k a) (k b)⟩
  haveI : IsTrans α (fun a b => cmp a b ≤ 0) :=
    ⟨fun a b c h1 h2 => by
      rw [hle] at h1 h2 ⊢
      exact le_trans h1 h2⟩
  have hs := List.sorted_insertionSort (fun a b => cmp a b ≤ 0) l
  exact List.Pairwise.imp (fun h => (hle _ _).mp h) hs

theorem jsStableSort_perm (cmp : α → α → ℚ) (l : List α) :
    List.Perm (jsStableSort cmp l) l :=
  List.perm_insertionSort _ l

theorem jsStableSort_neg_reverse {cmp : α → α → ℚ} {k : α → K}
    (hle : ∀ a b, cmp a b ≤ 0 ↔ k a ≤ k b) (heq : ∀ a b, cmp a b = 0 ↔ k a = k b)
    (l : List α) (hnd : l.Pairwise (fun a b => cmp a b ≠ 0)) :
    jsStableSort (fun a b => -(cmp a b)) l = (jsStableSort cmp l).reverse := by
  haveI : IsAntisymm α (fun a b => 0 < cmp a b) :=
    ⟨fun a b h1 h2 => by
      rw [cmp_pos_iff hle] at h1 h2
      exact absurd h1 (not_lt.mpr (le_of_lt h2))⟩
  have hsym : ∀ {x y : α}, cmp x y ≠ 0 → cmp y x ≠ 0 := by
    intro x y h hyx
    exact h ((heq x y).mpr (((heq y x).mp hyx).symm))
  have hle' : ∀ a b, -(cmp a b) ≤ 0 ↔ OrderDual.toDual (k a) ≤ OrderDual.toDual (k b) := by
    intro a b
    rw [neg_nonpos, cmp_nonneg_iff hle heq]
    exact OrderDual.toDual_le_toDual.symm
  have hperm : List.Perm (jsStableSort (fun a b => -(cmp a b)) l)
      ((jsStableSort cmp l).reverse) :=
    ((jsStableSort_perm _ l).trans ((jsStableSort_perm cmp l).symm)).trans
      (List.reverse_perm _).symm
  have hnd1 : (jsStableSort (fun a b => -(cmp a b)) l).Pairwise
      (fun a b => cmp a b ≠ 0) :=
    List.Pairwise.perm hnd (jsStableSort_perm _ l).symm hsym
  have hs1 : (jsStableSort (fun a b => -(cmp a b)) l).Pairwise
      (fun a b => 0 < cmp a b) := by
    have hb := (jsStableSort_pairwise_le hle' l).and hnd1
    refine hb.imp ?_
    intro a b hab
    have h1 : k b ≤ k a := OrderDual.toDual_le_toDual.mp hab.1
    have h2 : k b ≠ k a := fun he => hab.2 ((heq a b).mpr he.symm)
    exact (cmp_pos_iff hle a b).mpr (lt_of_le_of_ne h1 h2)
  have hnd2 : (jsStableSort cmp l).Pairwise (fun a b => cmp a b ≠ 0) :=
    List.Pairwise.perm hnd (jsStableSort_perm cmp l).symm hsym
  have hs2 : ((jsStableSort cmp l).reverse).Pairwise (fun a b => 0 < cmp a b) := by
    rw [List.pairwise_reverse]
    have hb := (jsStableSort_pairwise_le hle l).and hnd2
    refine hb.imp ?_
    intro a b hab
    have h1 : k a < k b := lt_of_le_of_ne hab.1 fun he => hab.2 ((heq a b).mpr he)
    exact (cmp_pos_iff hle b a).mpr h1
  exact List.eq_of_perm_of_sorted hperm hs1 hs2

end StableSortTheory

theorem flatten_chunks {α : Type} (ℓ : ℕ) (hℓ : 1 ≤ ℓ) :
    ∀ (n : ℕ) (l : List α), l.length = n →
      ((List.range ((n + ℓ - 1) / ℓ)).map (fun i => (l.drop (i * ℓ)).take ℓ)).flatten = l := by
  intro n
  induction n using Nat.strong_induction_on with
  | _ n ih =>
    intro l hl
    cases l with
    | nil =>
      simp only [List.length_nil] at hl
      subst hl
      have h0 : (0 + ℓ - 1) / ℓ = 0 := Nat.div_eq_of_lt (by omega)
      simp [h0]
    | cons a t =>
      have hn1 : 1 ≤ n := by
        simp only [List.length_cons] at hl
        omega
      have hq : (n + ℓ - 1) / ℓ = (n - 1) / ℓ + 1 := by
        have he : n + ℓ - 1 = (n - 1) + ℓ := by omega
        rw [he, Nat.add_div_right _ (by omega)]
      rw [hq, List.range_succ_eq_map, List.map_cons, List.map_map, List.flatten_cons]
      have hfun : ((fun i => (((a :: t).drop (i * ℓ)).take ℓ)) ∘ Nat.succ)
          = fun i => ((((a :: t).drop ℓ).drop (i * ℓ)).take ℓ) := by
        funext i
        simp only [Function.comp]
        rw [List.drop_drop]
        have hmul : Nat.succ i * ℓ = ℓ + i * ℓ := by rw [Nat.succ_mul, Nat.add_comm]
        rw [hmul]
      rw [hfun]
      have hlen : ((a :: t).drop ℓ).length = n - ℓ := by rw [List.length_drop, hl]
      have hm : ((n - ℓ) + ℓ - 1) / ℓ = (n - 1) / ℓ := by
        rcases le_or_lt n ℓ with h | h
        · have h1 : n - ℓ = 0 := by omega
          rw [h1, Nat.div_eq_of_lt (by omega), Nat.div_eq_of_lt (by omega)]
        · have h1 : n - ℓ + ℓ - 1 = n - 1 := by omega
          rw [h1]
      have hrec := ih (n - ℓ) (by omega) ((a :: t).drop ℓ) hlen
      rw [hm] at hrec
      rw [hrec]
      simp [List.take_append_drop]

theorem le_ceil_mul (t ℓ : ℕ) (hℓ : 1 ≤ ℓ) : t ≤ ((t + ℓ - 1) / ℓ) * ℓ := by
  rcases Nat.eq_zero_or_pos t with h | h
  · simp [h]
  · have hq : (t + ℓ - 1) / ℓ = (t - 1) / ℓ + 1 := by
      have he : t + ℓ - 1 = (t - 1) + ℓ := by omega
      rw [he, Nat.add_div_right _ (by omega)]
    rw [hq]
    have hd := Nat.div_add_mod (t - 1) ℓ
    have hm : (t - 1) % ℓ < ℓ := Nat.mod_lt _ (by omega)
    have hx : ((t - 1) / ℓ + 1) * ℓ = ℓ * ((t - 1) / ℓ) + ℓ := by ring
    rw [hx]
    generalize hA : ℓ * ((t - 1) / ℓ) = A at hd ⊢
    generalize hB : (t - 1) % ℓ = B at hd hm
    omega

/-- A filter set with every optional filter absent. -/
def noFilters : ProductFilters :=
  { category := none, brand := none, inStock := false, minPrice := none,
    maxPrice := none, sortBy := none, sortOrder := none }

/-- Sample product used to instantiate proved theorems. -/
def prodA : Product :=
  { id := "a", name := "alpha", description := "first product", price := 10,
    category := "c", subcategory := none, brand := "b1", inStock := true,
    stockQuantity := 5, rating := 4, reviewCount := 2, tags := ["x"], createdAtTime := 1 }

/-- Sample product used to instantiate proved theorems. -/
def prodB : Product :=
  { id := "b", name := "beta", description := "second product", price := 20,
    category := "c", subcategory := none, brand := "b2", inStock := true,
    stockQuantity := 3, rating := 5, reviewCount := 7, tags := ["y"], createdAtTime := 2 }

/-- Sample product used to instantiate proved theorems. -/
def prodC : Product :=
  { id := "cc", name := "gamma", description := "third product", price := 30,
    category := "c", subcategory := none, brand := "b1", inStock := false,
    stockQuantity := 0, rating := 3, reviewCount := 1, tags := [], createdAtTime := 3 }

/-- C1: for every filter set, every limit at least 1 and every page at least
1, the page returned by getProducts has at most limit products and reports
total as the size of the filtered-and-sorted list before slicing; totalPages
is the finite ceiling of total over limit; and concatenating the data slices
of pages 1..totalPages reconstructs the filtered-and-sorted list, each
element exactly once. -/
theorem c1_pagination_partition (f : ProductFilters) (ps : List Product) (ℓ : ℕ)
    (hℓ : 1 ≤ ℓ) :
    (∀ p, 1 ≤ p → ((getProducts f ⟨p, ℓ⟩ ps).products.length ≤ ℓ
        ∧ (getProducts f ⟨p, ℓ⟩ ps).meta.total = (sortedFiltered f ps).length))
    ∧ (getProducts f ⟨1, ℓ⟩ ps).meta.totalPages
        = JSNum.num (((sortedFiltered f ps).length + ℓ - 1) / ℓ)
    ∧ ((List.range (((sortedFiltered f ps).length + ℓ - 1) / ℓ)).map
          (fun i => (getProducts f ⟨i + 1, ℓ⟩ ps).products)).flatten
        = sortedFiltered f ps := by
  refine ⟨fun p hp => ⟨List.length_take_le _ _, rfl⟩, ?_, ?_⟩
  · show jsTotalPages (sortedFiltered f ps).length ℓ = _
    unfold jsTotalPages
    rw [if_neg (by omega)]
  · have hpages : (fun i => (getProducts f ⟨i + 1, ℓ⟩ ps).products)
        = fun i => (((sortedFiltered f ps).drop (i * ℓ)).take ℓ) := by
      funext i
      show (((sortedFiltered f ps).drop ((i + 1 - 1) * ℓ)).take ℓ) = _
      rw [Nat.add_sub_cancel]
    rw [hpages]
    exact flatten_chunks ℓ hℓ (sortedFiltered f ps).length (sortedFiltered f ps) rfl

theorem c1_pagination_partition_witness :
    ((List.range (((sortedFiltered noFilters [prodA]).length + 1 - 1) / 1)).map
        (fun i => (getProducts noFilters ⟨i + 1, 1⟩ [prodA]).products)).flatten
      = sortedFiltered noFilters [prodA]
    ∧ (getProducts noFilters ⟨1, 1⟩ [prodA]).products.length ≤ 1 :=
  ⟨(c1_pagination_partition noFilters [prodA] 1 (by decide)).2.2,
   ((c1_pagination_partition noFilters [prodA] 1 (by decide)).1 1 (by decide)).1⟩

/-- C3: neither getProducts nor searchProducts guards against limit = 0: both
run to completion (no rejection) and compute totalPages by the division
total / 0, whose JavaScript value is NaN for an empty result set and
Infinity otherwise. -/
theorem c3_limit_zero_division_reachable (f : ProductFilters) (sf : SearchFilters)
    (ps : List Product) (page : ℕ) :
    (getProducts f ⟨page, 0⟩ ps).meta.totalPages
        = (if (getProducts f ⟨page, 0⟩ ps).meta.total = 0 then JSNum.nan else JSNum.inf)
    ∧ (searchProducts sf ⟨page, 0⟩ ps).meta.totalPages
        = (if (searchProducts sf ⟨page, 0⟩ ps).meta.total = 0 then JSNum.nan else JSNum.inf) := by
  constructor
  · show jsTotalPages (sortedFiltered f ps).length 0 = _
    unfold jsTotalPages
    rw [if_pos rfl]
    rfl
  · show jsTotalPages (searchOrdered sf ps).length 0 = _
    unfold jsTotalPages
    rw [if_pos rfl]
    rfl

/-- C10: for every filter set, limit at least 1 and page strictly greater
than the (finite) totalPages, getProducts still succeeds, returns an empty
data slice, reports the full pre-pagination total, hasNext = false, and
echoes the requested page and limit. -/
theorem c10_page_overflow (f : ProductFilters) (ps : List Product) (ℓ p tp : ℕ)
    (hℓ : 1 ≤ ℓ) (htp : (getProducts f ⟨p, ℓ⟩ ps).meta.totalPages = JSNum.num tp)
    (hp : tp < p) :
    (getProducts f ⟨p, ℓ⟩ ps).products = []
      ∧ (getProducts f ⟨p, ℓ⟩ ps).meta.total = (sortedFiltered f ps).length
      ∧ (getProducts f ⟨p, ℓ⟩ ps).meta.hasNext = false
      ∧ (getProducts f ⟨p, ℓ⟩ ps).meta.page = p
      ∧ (getProducts f ⟨p, ℓ⟩ ps).meta.limit = ℓ := by
  have htp0 : jsTotalPages (sortedFiltered f ps).length ℓ = JSNum.num tp := htp
  have htp1 : JSNum.num (((sortedFiltered f ps).length + ℓ - 1) / ℓ) = JSNum.num tp := by
    rw [← htp0]
    unfold jsTotalPages
    rw [if_neg (by omega)]
  have htp2 : ((sortedFiltered f ps).length + ℓ - 1) / ℓ = tp := by
    injection htp1
  have hlen : (sortedFiltered f ps).length ≤ (p - 1) * ℓ := by
    have h1 : (sortedFiltered f ps).length ≤ tp * ℓ := by
      rw [← htp2]
      exact le_ceil_mul _ ℓ hℓ
    exact le_trans h1 (Nat.mul_le_mul_right _ (by omega))
  refine ⟨?_, rfl, ?_, rfl, rfl⟩
  · show (((sortedFiltered f ps).drop ((p - 1) * ℓ)).take ℓ) = []
    rw [List.drop_eq_nil_of_le hlen, List.take_nil]
  · show jsLtPage p (jsTotalPages (sortedFiltered f ps).length ℓ) = false
    rw [htp0]
    show decide (p < tp) = false
    simp only [decide_eq_false_iff_not, not_lt]
    omega

theorem c10_page_overflow_witness :
    (getProducts noFilters ⟨2, 1⟩ [prodA]).products = []
      ∧ (getProducts noFilters ⟨2, 1⟩ [prodA]).meta.hasNext = false :=
  ⟨(c10_page_overflow noFilters [prodA] 1 2 1 (by decide) (by decide) (by decide)).1,
   (c10_page_overflow noFilters [prodA] 1 2 1 (by decide) (by decide) (by decide)).2.2.1⟩

theorem localeCmp_le_iff (s t : String) : localeCmp s t ≤ 0 ↔ s ≤ t := by
  unfold localeCmp
  by_cases h1 : s < t
  · rw [if_pos h1]
    constructor
    · intro _; exact le_of_lt h1
    · intro _; norm_num
  · rw [if_neg h1]
    by_cases h2 : s = t
    · rw [if_pos h2]
      simp [h2]
    · rw [if_neg h2]
      have ht : t < s := lt_of_le_of_ne (not_lt.mp h1) fun h => h2 h.symm
      constructor
      · intro hc; exact absurd hc (by norm_num)
      · intro hc; exact absurd hc (not_le.mpr ht)

theorem localeCmp_eq_zero_iff (s t : String) : localeCmp s t = 0 ↔ s = t := by
  unfold localeCmp
  by_cases h1 : s < t
  · rw [if_pos h1]
    constructor
    · intro hc; exact absurd hc (by norm_num)
    · intro hc; exact absurd hc (ne_of_lt h1)
  · rw [if_neg h1]
    by_cases h2 : s = t
    · rw [if_pos h2]
      simp [h2]
    · rw [if_neg h2]
      constructor
      · intro hc; exact absurd hc (by norm_num)
      · intro hc; exact absurd hc h2

theorem c2_generic_pack {K : Type} [LinearOrder K] {cmp : Product → Product → ℚ}
    {k : Product → K}
    (hle : ∀ a b, cmp a b ≤ 0 ↔ k a ≤ k b) (heq : ∀ a b, cmp a b = 0 ↔ k a = k b)
    (l : List Product) :
    (∀ x, (jsStableSort cmp l).filter (fun y => decide (cmp x y = 0))
        = l.filter (fun y => decide (cmp x y = 0)))
    ∧ (∀ x, (jsStableSort (fun a b => -(cmp a b)) l).filter (fun y => decide (cmp x y = 0))
        = l.filter (fun y => decide (cmp x y = 0)))
    ∧ (l.Pairwise (fun a b => cmp a b ≠ 0) →
        jsStableSort (fun a b => -(cmp a b)) l = (jsStableSort cmp l).reverse) := by
  have hle' : ∀ a b : Product,
      -(cmp a b) ≤ 0 ↔ OrderDual.toDual (k a) ≤ OrderDual.toDual (k b) := by
    intro a b
    rw [neg_nonpos, cmp_nonneg_iff hle heq]
    exact OrderDual.toDual_le_toDual.symm
  refine ⟨fun x => ?_, fun x => ?_, fun hnd => jsStableSort_neg_reverse hle heq l hnd⟩
  · exact jsStableSort_filter_of _ hle
      (fun b c hb hc =>
        ((heq x b).mp (of_decide_eq_true hb)).symm.trans ((heq x c).mp (of_decide_eq_true hc)))
      l
  · exact jsStableSort_filter_of _ hle'
      (fun b c hb hc =>
        congrArg OrderDual.toDual
          (((heq x b).mp (of_decide_eq_true hb)).symm.trans
            ((heq x c).mp (of_decide_eq_true hc))))
      l

/-- C2: for every sort key, the sort used by getProducts is stable in both
directions (the products tied with any fixed product x keep their original
relative order, for asc and for desc, because desc negates the comparator
instead of reversing the sequence), and when the keys are pairwise distinct
the desc order is exactly the reverse of the asc order. -/
theorem c2_sort_stable_and_desc_reverse (sb : SortBy) (l : List Product) :
    (∀ (so : SortOrder) (x : Product),
        (jsStableSort (appliedCmp sb so) l).filter
            (fun y => decide (productComparison sb x y = 0))
          = l.filter (fun y => decide (productComparison sb x y = 0)))
    ∧ (l.Pairwise (fun a b => productComparison sb a b ≠ 0) →
        jsStableSort (appliedCmp sb SortOrder.desc) l
          = (jsStableSort (appliedCmp sb SortOrder.asc) l).reverse) := by
  cases sb with
  | price =>
    have hle : ∀ a b : Product, productComparison SortBy.price a b ≤ 0 ↔ a.price ≤ b.price :=
      fun a b => sub_nonpos
    have heq : ∀ a b : Product, productComparison SortBy.price a b = 0 ↔ a.price = b.price :=
      fun a b => sub_eq_zero
    have h := c2_generic_pack hle heq l
    refine ⟨fun so x => ?_, h.2.2⟩
    cases so with
    | asc => exact h.1 x
    | desc => exact h.2.1 x
  | rating =>
    have hle : ∀ a b : Product, productComparison SortBy.rating a b ≤ 0 ↔ a.rating ≤ b.rating :=
      fun a b => sub_nonpos
    have heq : ∀ a b : Product, productComparison SortBy.rating a b = 0 ↔ a.rating = b.rating :=
      fun a b => sub_eq_zero
    have h := c2_generic_pack hle heq l
    refine ⟨fun so x => ?_, h.2.2⟩
    cases so with
    | asc => exact h.1 x
    | desc => exact h.2.1 x
  | created_at =>
    have hle : ∀ a b : Product,
        productComparison SortBy.created_at a b ≤ 0 ↔ a.createdAtTime ≤ b.createdAtTime := by
      intro a b
      show ((a.createdAtTime - b.createdAtTime : ℤ) : ℚ) ≤ 0 ↔ _
      rw [Int.cast_nonpos, sub_nonpos]
    have heq : ∀ a b : Product,
        productComparison SortBy.created_at a b = 0 ↔ a.createdAtTime = b.createdAtTime := by
      intro a b
      show ((a.createdAtTime - b.createdAtTime : ℤ) : ℚ) = 0 ↔ _
      rw [Int.cast_eq_zero, sub_eq_zero]
    have h := c2_generic_pack hle heq l
    refine ⟨fun so x => ?_, h.2.2⟩
    cases so with
    | asc => exact h.1 x
    | desc => exact h.2.1 x
  | name =>
    have hle : ∀ a b : Product,
        productComparison SortBy.name a b ≤ 0 ↔ a.name.toLower ≤ b.name.toLower :=
      fun a b => localeCmp_le_iff a.name.toLower b.name.toLower
    have heq : ∀ a b : Product,
        productComparison SortBy.name a b = 0 ↔ a.name.toLower = b.name.toLower :=
      fun a b => localeCmp_eq_zero_iff a.name.toLower b.name.toLower
    have h := c2_generic_pack hle heq l
    refine ⟨fun so x => ?_, h.2.2⟩
    cases so with
    | asc => exact h.1 x
    | desc => exact h.2.1 x

theorem c2_sort_stable_and_desc_reverse_witness :
    jsStableSort (appliedCmp SortBy.price SortOrder.desc) [prodA, prodB]
      = (jsStableSort (appliedCmp SortBy.price SortOrder.asc) [prodA, prodB]).reverse :=
  (c2_sort_stable_and_desc_reverse SortBy.price [prodA, prodB]).2
    (by norm_num [List.pairwise_cons, productComparison, prodA, prodB])

/-- C5: the recommendations operation (service layer) fails with "Product
not found" exactly when the id does not resolve; otherwise the returned list
excludes the product itself, only contains products sharing its category or
its brand, is ordered by rating descending, and has length at most the
limit. -/
theorem c5_recommendations_spec (ps : List Product) (pid : String) (limit : ℕ) :
    (getProductById ps pid = none →
        getProductRecommendationsService ps pid limit = Except.error "Product not found")
    ∧ (∀ prod, getProductById ps pid = some prod →
        ∃ recs, getProductRecommendationsService ps pid limit = Except.ok recs
          ∧ (∀ r ∈ recs, r.id ≠ pid)
          ∧ (∀ r ∈ recs, r.category = prod.category ∨ r.brand = prod.brand)
          ∧ recs.Pairwise (fun a b => b.rating ≤ a.rating)
          ∧ recs.length ≤ limit) := by
  constructor
  · intro h
    unfold getProductRecommendationsService
    rw [h]
  · intro prod h
    have hrepo : getProductRecommendationsRepo ps pid limit
        = (jsStableSort (fun a b => b.rating - a.rating)
            (ps.filter (fun p =>
              (!(p.id == pid)) && (p.category == prod.category || p.brand == prod.brand)))).take
            limit := by
      unfold getProductRecommendationsRepo
      rw [h]
    have hserv : getProductRecommendationsService ps pid limit
        = Except.ok (getProductRecommendationsRepo ps pid limit) := by
      unfold getProductRecommendationsService
      rw [h]
    refine ⟨getProductRecommendationsRepo ps pid limit, hserv, ?_, ?_, ?_, ?_⟩
    · intro r hr
      rw [hrepo] at hr
      have hr2 := ((jsStableSort_perm _ _).mem_iff).mp (List.mem_of_mem_take hr)
      have hr3 := (List.mem_filter.mp hr2).2
      simp only [Bool.and_eq_true, Bool.not_eq_true', beq_eq_false_iff_ne] at hr3
      exact hr3.1
    · intro r hr
      rw [hrepo] at hr
      have hr2 := ((jsStableSort_perm _ _).mem_iff).mp (List.mem_of_mem_take hr)
      have hr3 := (List.mem_filter.mp hr2).2
      simp only [Bool.and_eq_true, Bool.or_eq_true, beq_iff_eq] at hr3
      exact hr3.2
    · have hle : ∀ a b : Product, (fun a b : Product => b.rating - a.rating) a b ≤ 0
          ↔ OrderDual.toDual a.rating ≤ OrderDual.toDual b.rating := by
        intro a b
        rw [OrderDual.toDual_le_toDual]
        exact sub_nonpos
      have hs := jsStableSort_pairwise_le hle
        (ps.filter (fun p =>
          (!(p.id == pid)) && (p.category == prod.category || p.brand == prod.brand)))
      rw [hrepo]
      refine List.Pairwise.sublist (List.take_sublist _ _) (hs.imp ?_)
      intro a b hab
      exact OrderDual.toDual_le_toDual.mp hab
    · rw [hrepo]
      exact List.length_take_le _ _

theorem c5_recommendations_spec_witness :
    ∃ recs, getProductRecommendationsService [prodA, prodB, prodC] "a" 2 = Except.ok recs
      ∧ (∀ r ∈ recs, r.id ≠ "a")
      ∧ (∀ r ∈ recs, r.category = prodA.category ∨ r.brand = prodA.brand)
      ∧ recs.Pairwise (fun a b => b.rating ≤ a.rating)
      ∧ recs.length ≤ 2 :=
  (c5_recommendations_spec [prodA, prodB, prodC] "a" 2).2 prodA (by decide)

/-- Propositional reading of the query part of the search predicate. -/
def matchesQueryP (q : String) (p : Product) : Prop :=
  q = "" ∨ jsIncludes p.name.toLower q.toLower = true
    ∨ jsIncludes p.description.toLower q.toLower = true
    ∨ ∃ t ∈ p.tags, jsIncludes t.toLower q.toLower = true

/-- Propositional reading of the category part of the search predicate. -/
def matchesCategoryP (c : Option String) (p : Product) : Prop :=
  match c with
  | none => True
  | some cc => cc = "" ∨ p.category = cc ∨ p.subcategory = some cc

theorem matchesQueryB_iff (q : String) (p : Product) :
    matchesQueryB q p = true ↔ matchesQueryP q p := by
  unfold matchesQueryB matchesQueryP
  simp [List.any_eq_true, or_assoc]

theorem matchesCategoryB_iff (c : Option String) (p : Product) :
    matchesCategoryB c p = true ↔ matchesCategoryP c p := by
  unfold matchesCategoryB matchesCategoryP
  cases c with
  | none => simp
  | some cc => simp [or_assoc]

/-- C6: a product is in the pre-pagination match set of searchProducts iff it
is in the store, the query matches (empty query, or case-insensitive
substring of the name, the description, or a tag) and the category filter
passes; with a non-empty query the match set is ordered by non-increasing
relevance score; with an empty query it is exactly the store-ordered
filtered list, with no relevance reordering. -/
theorem c6_search_semantics (sf : SearchFilters) (ps : List Product) :
    (∀ p, p ∈ searchOrdered sf ps
        ↔ p ∈ ps ∧ matchesQueryP (sf.query.getD "") p ∧ matchesCategoryP sf.category p)
    ∧ (sf.query.getD "" ≠ "" →
        (searchOrdered sf ps).Pairwise
          (fun a b => relevanceScore (sf.query.getD "") b ≤ relevanceScore (sf.query.getD "") a))
    ∧ (sf.query.getD "" = "" →
        searchOrdered sf ps = ps.filter (fun p => matchesCategoryB sf.category p)) := by
  have hmem : ∀ p, p ∈ searchOrdered sf ps ↔ p ∈ searchMatches sf ps := by
    intro p
    unfold searchOrdered
    by_cases hq : sf.query.getD "" = ""
    · rw [if_pos hq]
    · rw [if_neg hq]
      exact (jsStableSort_perm _ _).mem_iff
  refine ⟨fun p => ?_, ?_, ?_⟩
  · rw [hmem p]
    unfold searchMatches
    rw [List.mem_filter]
    rw [Bool.and_eq_true, matchesQueryB_iff, matchesCategoryB_iff]


  · intro hq
    have hsort : searchOrdered sf ps
        = jsStableSort
            (fun a b => ((relevanceScore (sf.query.getD "") b : ℚ)
              - (relevanceScore (sf.query.getD "") a : ℚ)))
            (searchMatches sf ps) := by
      unfold searchOrdered
      rw [if_neg hq]
    have hle : ∀ a b : Product,
        ((relevanceScore (sf.query.getD "") b : ℚ) - (relevanceScore (sf.query.getD "") a : ℚ))
            ≤ 0
          ↔ OrderDual.toDual (relevanceScore (sf.query.getD "") a)
              ≤ OrderDual.toDual (relevanceScore (sf.query.getD "") b) := by
      intro a b
      rw [OrderDual.toDual_le_toDual, sub_nonpos, Nat.cast_le]
    rw [hsort]
    exact (jsStableSort_pairwise_le hle (searchMatches sf ps)).imp
      (fun h => OrderDual.toDual_le_toDual.mp h)
  · intro hq
    unfold searchOrdered
    rw [if_pos hq]
    unfold searchMatches
    refine List.filter_congr ?_
    intro p _
    rw [hq]
    unfold matchesQueryB
    simp

theorem c6_search_semantics_witness :
    searchOrdered { query := none, category := none } [prodA, prodB]
        = [prodA, prodB].filter (fun p => matchesCategoryB none p)
    ∧ (prodA ∈ searchOrdered { query := none, category := none } [prodA, prodB]
        ↔ prodA ∈ [prodA, prodB] ∧ matchesQueryP "" prodA ∧ matchesCategoryP none prodA) :=
  ⟨(c6_search_semantics { query := none, category := none } [prodA, prodB]).2.2 rfl,
   (c6_search_semantics { query := none, category := none } [prodA, prodB]).1 prodA⟩

theorem facets_shape_spec (key : Product → String) (res : List Product) :
    (((dedupFirst (res.map key)).map
        (fun v => (v, (res.filter (fun p => key p == v)).length))).map Prod.fst).Nodup
    ∧ (∀ v, v ∈ ((dedupFirst (res.map key)).map
          (fun v => (v, (res.filter (fun p => key p == v)).length))).map Prod.fst
        ↔ v ∈ res.map key)
    ∧ ∀ x ∈ (dedupFirst (res.map key)).map
          (fun v => (v, (res.filter (fun p => key p == v)).length)),
        x.2 = (res.filter (fun p => key p = x.1)).length := by
  have hfst : ((dedupFirst (res.map key)).map
        (fun v => (v, (res.filter (fun p => key p == v)).length))).map Prod.fst
      = dedupFirst (res.map key) := by
    rw [List.map_map]
    exact List.map_id _
  refine ⟨?_, fun v => ?_, fun x hx => ?_⟩
  · rw [hfst]
    exact nodup_dedupFirst _
  · rw [hfst]
    exact mem_dedupFirst
  · rcases List.mem_map.mp hx with ⟨v, _, hvx⟩
    subst hvx
    show (res.filter (fun p => key p == v)).length
        = (res.filter (fun p => decide (key p = v))).length
    have hfun : (res.filter (fun p => key p == v)) = (res.filter (fun p => decide (key p = v))) := by
      refine List.filter_congr ?_
      intro p _
      by_cases h : key p = v
      · simp [h]
      · simp [h]
    rw [hfun]

/-- C8: the category facets (and brand facets) of searchProducts list each
value occurring among the pre-pagination matches exactly once, with the
count of matches carrying that value; values outside the match set do not
appear, and only matches contribute to counts. -/
theorem c8_search_facets (sf : SearchFilters) (pg : PaginationParams) (ps : List Product) :
    ((searchProducts sf pg ps).facets.categories.map Prod.fst).Nodup
    ∧ (∀ v, v ∈ (searchProducts sf pg ps).facets.categories.map Prod.fst
        ↔ v ∈ (searchOrdered sf ps).map (fun p => p.category))
    ∧ (∀ x ∈ (searchProducts sf pg ps).facets.categories,
        x.2 = ((searchOrdered sf ps).filter (fun p => p.category = x.1)).length)
    ∧ ((searchProducts sf pg ps).facets.brands.map Prod.fst).Nodup
    ∧ (∀ v, v ∈ (searchProducts sf pg ps).facets.brands.map Prod.fst
        ↔ v ∈ (searchOrdered sf ps).map (fun p => p.brand))
    ∧ (∀ x ∈ (searchProducts sf pg ps).facets.brands,
        x.2 = ((searchOrdered sf ps).filter (fun p => p.brand = x.1)).length) := by
  have hc : (searchProducts sf pg ps).facets.categories
      = categoryFacets (searchOrdered sf ps) := rfl
  have hb : (searchProducts sf pg ps).facets.brands
      = brandFacets (searchOrdered sf ps) := rfl
  have h1 := facets_shape_spec (fun p => p.category) (searchOrdered sf ps)
  have h2 := facets_shape_spec (fun p => p.brand) (searchOrdered sf ps)
  rw [hc, hb]
  exact ⟨h1.1, h1.2.1, h1.2.2, h2.1, h2.2.1, h2.2.2⟩

theorem c8_search_facets_witness :
    ((searchProducts { query := none, category := none } ⟨1, 10⟩
        [prodA, prodB]).facets.categories.map Prod.fst).Nodup
    ∧ ("c", 2).2 = ((searchOrdered { query := none, category := none } [prodA, prodB]).filter
        (fun p => p.category = ("c", 2).1)).length :=
  ⟨(c8_search_facets { query := none, category := none } ⟨1, 10⟩ [prodA, prodB]).1,
   (c8_search_facets { query := none, category := none } ⟨1, 10⟩ [prodA, prodB]).2.2.1
     ("c", 2) (by decide)⟩

theorem foldl_min_le_init {β : Type} [LinearOrder β] : ∀ (l : List β) (a : β), l.foldl min a ≤ a
  | [], a => le_refl a
  | b :: l, a => le_trans (foldl_min_le_init l (min a b)) (min_le_left a b)

theorem foldl_min_le_mem {β : Type} [LinearOrder β] :
    ∀ (l : List β) (a x : β), x ∈ l → l.foldl min a ≤ x
  | b :: l, a, x, hx => by
    rcases List.mem_cons.mp hx with h | h
    · subst h
      exact le_trans (foldl_min_le_init l (min a x)) (min_le_right a x)
    · exact foldl_min_le_mem l (min a b) x h

theorem foldl_min_mem {β : Type} [LinearOrder β] :
    ∀ (l : List β) (a : β), l.foldl min a = a ∨ l.foldl min a ∈ l
  | [], a => Or.inl rfl
  | b :: l, a => by
    rw [List.foldl_cons]
    rcases foldl_min_mem l (min a b) with h | h
    · rcases le_total a b with hab | hab
      · rw [h, min_eq_left hab]
        exact Or.inl rfl
      · rw [h, min_eq_right hab]
        exact Or.inr (List.mem_cons_self _ _)
    · exact Or.inr (List.mem_cons_of_mem b h)

theorem foldl_max_init_le {β : Type} [LinearOrder β] : ∀ (l : List β) (a : β), a ≤ l.foldl max a
  | [], a => le_refl a
  | b :: l, a => le_trans (le_max_left a b) (foldl_max_init_le l (max a b))

theorem foldl_max_mem_le {β : Type} [LinearOrder β] :
    ∀ (l : List β) (a x : β), x ∈ l → x ≤ l.foldl max a
  | b :: l, a, x, hx => by
    rcases List.mem_cons.mp hx with h | h
    · subst h
      exact le_trans (le_max_right a x) (foldl_max_init_le l (max a x))
    · exact foldl_max_mem_le l (max a b) x h

theorem foldl_max_mem {β : Type} [LinearOrder β] :
    ∀ (l : List β) (a : β), l.foldl max a = a ∨ l.foldl max a ∈ l
  | [], a => Or.inl rfl
  | b :: l, a => by
    rw [List.foldl_cons]
    rcases foldl_max_mem l (max a b) with h | h
    · rcases le_total a b with hab | hab
      · rw [h, max_eq_right hab]
        exact Or.inr (List.mem_cons_self _ _)
      · rw [h, max_eq_left hab]
        exact Or.inl rfl
    · exact Or.inr (List.mem_cons_of_mem b h)

theorem foldl_add_eq_sum : ∀ (l : List ℚ) (a : ℚ), l.foldl (fun sum price => sum + price) a = a + l.sum
  | [], a => by simp
  | b :: l, a => by
    rw [List.foldl_cons, foldl_add_eq_sum l (a + b), List.sum_cons]
    ring

/-- C9: getCategoryPriceRange answers none exactly when no product carries
the category (signalled as 404 by the controller); otherwise it returns the
minimum and maximum of the matching products' prices, the mean price rounded
to two decimal places, and the count of matching products; in particular
prices 10, 20, 30 yield min 10, max 30, average 20.00 and count 3. -/
theorem c9_price_range (prods : List Product) (cid : String) :
    (prods.filter (fun p => p.category == cid || p.subcategory == some cid) = [] →
        getCategoryPriceRange prods cid = none)
    ∧ (∀ q qs,
        prods.filter (fun p => p.category == cid || p.subcategory == some cid) = q :: qs →
        ∃ r, getCategoryPriceRange prods cid = some r
          ∧ r.minPrice ∈ (q :: qs).map (fun p => p.price)
          ∧ (∀ x ∈ (q :: qs).map (fun p => p.price), r.minPrice ≤ x)
          ∧ r.maxPrice ∈ (q :: qs).map (fun p => p.price)
          ∧ (∀ x ∈ (q :: qs).map (fun p => p.price), x ≤ r.maxPrice)
          ∧ r.averagePrice = ((jsMathRound ((((q :: qs).map (fun p => p.price)).sum
                / (((q :: qs).length : ℕ) : ℚ)) * 100) : ℤ) : ℚ) / 100
          ∧ r.productCount = (q :: qs).length)
    ∧ getCategoryPriceRange [prodA, prodB, prodC] "c"
        = some { categoryId := "c", minPrice := 10, maxPrice := 30,
                 averagePrice := 20, productCount := 3 } := by
  refine ⟨fun h => ?_, fun q qs h => ?_, ?_⟩
  · simp only [getCategoryPriceRange, h]
  · have hval : getCategoryPriceRange prods cid
        = some { categoryId := cid
                 minPrice := (qs.map (fun p => p.price)).foldl min q.price
                 maxPrice := (qs.map (fun p => p.price)).foldl max q.price
                 averagePrice :=
                   ((jsMathRound ((((q :: qs).map (fun p => p.price)).foldl
                       (fun sum price => sum + price) 0
                     / (((q :: qs).map (fun p => p.price)).length : ℚ)) * 100) : ℤ) : ℚ) / 100
                 productCount := (q :: qs).length } := by
      simp only [getCategoryPriceRange, h]
    refine ⟨_, hval, ?_, ?_, ?_, ?_, ?_, rfl⟩
    · show (qs.map (fun p => p.price)).foldl min q.price ∈ (q :: qs).map (fun p => p.price)
      rcases foldl_min_mem (qs.map (fun p => p.price)) q.price with h1 | h1
      · rw [h1, List.map_cons]
        exact List.mem_cons_self _ _
      · rw [List.map_cons]
        exact List.mem_cons_of_mem _ h1
    · intro x hx
      rw [List.map_cons, List.mem_cons] at hx
      rcases hx with h1 | h1
      · subst h1
        exact foldl_min_le_init _ _
      · exact foldl_min_le_mem _ _ _ h1
    · show (qs.map (fun p => p.price)).foldl max q.price ∈ (q :: qs).map (fun p => p.price)
      rcases foldl_max_mem (qs.map (fun p => p.price)) q.price with h1 | h1
      · rw [h1, List.map_cons]
        exact List.mem_cons_self _ _
      · rw [List.map_cons]
        exact List.mem_cons_of_mem _ h1
    · intro x hx
      rw [List.map_cons, List.mem_cons] at hx
      rcases hx with h1 | h1
      · subst h1
        exact foldl_max_init_le _ _
      · exact foldl_max_mem_le _ _ _ h1
    · show ((jsMathRound ((((q :: qs).map (fun p => p.price)).foldl
            (fun sum price => sum + price) 0
          / (((q :: qs).map (fun p => p.price)).length : ℚ)) * 100) : ℤ) : ℚ) / 100 = _
      rw [foldl_add_eq_sum, zero_add, List.length_map]
  · have hfilter : [prodA, prodB, prodC].filter
        (fun p => p.category == "c" || p.subcategory == some "c") = [prodA, prodB, prodC] := by
      decide
    simp only [getCategoryPriceRange, hfilter, List.map_cons, List.map_nil, List.foldl_cons,
      List.foldl_nil, List.length_cons, List.length_nil, Option.some.injEq, PriceRange.mk.injEq]
    have hfloor : (⌊((0 + prodA.price + prodB.price + prodC.price)
        / ((((2 : ℕ) + 1 : ℕ)) : ℚ) * 100) + 1 / 2⌋ : ℤ) = 2000 := by
      rw [Int.floor_eq_iff]
      norm_num [prodA, prodB, prodC]
    refine ⟨trivial, ?_, ?_, ?_, trivial⟩
    · show min (min prodA.price prodB.price) prodC.price = 10
      norm_num [prodA, prodB, prodC]
    · show max (max prodA.price prodB.price) prodC.price = 30
      norm_num [prodA, prodB, prodC]
    · show ((jsMathRound ((0 + prodA.price + prodB.price + prodC.price)
          / ((((2 : ℕ) + 1 : ℕ)) : ℚ) * 100) : ℤ) : ℚ) / 100 = 20
      rw [jsMathRound, hfloor]
      norm_num

theorem c9_price_range_witness :
    getCategoryPriceRange [prodA, prodB, prodC] "c"
        = some { categoryId := "c", minPrice := 10, maxPrice := 30,
                 averagePrice := 20, productCount := 3 }
    ∧ getCategoryPriceRange [] "zz" = none :=
  ⟨(c9_price_range [prodA, prodB, prodC] "c").2.2,
   (c9_price_range [] "zz").1 rfl⟩

/-- C7: the get_product_recommendations tool fails with an InvalidRequest
validation error before any API call when neither productId nor category is
given (the outcome is fixed for every possible API), fails with an
InvalidRequest error echoing the id when the given productId does not
resolve (the API answers 404), and returns the category-scoped fallback
result set when only a category is given. -/
theorem c7_recommendations_tool_branching (store : List Product) (limit : ℕ) :
    (∀ api generalApi,
        recommendationsToolHandler api generalApi none none limit
          = ToolOutcome.invalidRequest
              "Either productId or category must be provided for recommendations")
    ∧ (∀ pid cat, pid ≠ "" → getProductById store pid = none →
        recommendationsTool store (some pid) cat limit
          = ToolOutcome.invalidRequest ("Product with ID " ++ pid ++ " not found"))
    ∧ (∀ c, c ≠ "" →
        recommendationsTool store none (some c) limit
          = ToolOutcome.ok (generalRecommendationsEndpoint store c limit)) := by
  refine ⟨fun api generalApi => rfl, ?_, ?_⟩
  · intro pid cat hpid hnone
    have hend : clientRecommendationsCall store pid limit
        = Except.error
            (("Failed to fetch from http://localhost:3001/api/v1/products/" ++ pid
                ++ "/recommendations?limit=" ++ toString limit ++ ": ")
              ++ ("API Error (" ++ toString (404 : ℕ) ++ "): " ++ "Product not found")) := by
      unfold clientRecommendationsCall recommendationsEndpoint
      rw [hnone]
    have h404 : jsIncludes
        (("Failed to fetch from http://localhost:3001/api/v1/products/" ++ pid
            ++ "/recommendations?limit=" ++ toString limit ++ ": ")
          ++ ("API Error (" ++ toString (404 : ℕ) ++ "): " ++ "Product not found")) "404"
        = true :=
      jsIncludes_append_right (by decide) _
    simp [recommendationsTool, recommendationsToolHandler, Option.getD_some, hend, h404, hpid]
  · intro c hc
    unfold recommendationsTool recommendationsToolHandler clientGeneralRecommendationsCall
    simp only [Option.getD_some, Option.getD_none]
    rw [if_neg (by simp), if_pos hc]

theorem c7_recommendations_tool_branching_witness :
    recommendationsTool [prodA] (some "zzz") none 5
        = ToolOutcome.invalidRequest ("Product with ID " ++ "zzz" ++ " not found")
    ∧ recommendationsTool [prodA] none (some "c") 5
        = ToolOutcome.ok (generalRecommendationsEndpoint [prodA] "c" 5)
    ∧ (∀ api generalApi,
        recommendationsToolHandler api generalApi none none 5
          = ToolOutcome.invalidRequest
              "Either productId or category must be provided for recommendations") :=
  ⟨(c7_recommendations_tool_branching [prodA] 5).2.1 "zzz" none (by decide) (by decide),
   (c7_recommendations_tool_branching [prodA] 5).2.2 "c" (by decide),
   (c7_recommendations_tool_branching [prodA] 5).1⟩

/-- A sample category with no subcategories. -/
def catX : Category := Category.mk "c1" "Cat One" "first category" none [] 0

/-- C4 counterexample: in the layered api-server (the server wired to the
CategoryRepository and CategoryController), a GET /api/v1/categories request
whose parent_id matches no category id succeeds with status 200 and an empty
data list; it does not respond 404. -/
theorem c4_unknown_parent_counterexample :
    categoriesRouteResponse [catX] [] (some "nope") true = (200, CategoriesBody.data [])
    ∧ (categoriesRouteResponse [catX] [] (some "nope") true).1 ≠ 404 := by
  constructor
  · rfl
  · intro h
    exact absurd h (by decide)

/-- C4 amended: for every GET /api/v1/categories request whose (truthy)
parent_id does not match any category id, the layered server responds with
HTTP 200 and an empty category list (the repository returns the empty list
and the controller wraps it; the 404 behaviour exists only in the legacy
monolithic server file). -/
theorem c4_unknown_parent_amended (cats : List Category) (prods : List Product)
    (pid : String) (ic : Bool) (hpid : pid ≠ "")
    (hnone : ∀ c ∈ cats, c.id ≠ pid) :
    categoriesRouteResponse cats prods (some pid) ic = (200, CategoriesBody.data []) := by
  have hfind : cats.find? (fun c => c.id == pid) = none := by
    rw [List.find?_eq_none]
    intro c hc
    simp only [beq_iff_eq]
    exact hnone c hc
  simp [categoriesRouteResponse, categoryRepoGetCategories, hpid, hfind]

theorem c4_unknown_parent_amended_witness :
    categoriesRouteResponse [catX] [] (some "zz") false = (200, CategoriesBody.data []) :=
  c4_unknown_parent_amended [catX] [] "zz" false (by decide)
    (fun c hc => by
      rcases List.mem_singleton.mp hc with rfl
      decide)

end Catalog
